import Mathlib

/-
  Verification development for the PyECT-py FIT solver (solverFIT3D.py).

  The solver state and its operations are shallowly embedded over the
  rationals: the exact structural facts at stake (which entries are zeroed,
  the order of the update steps, which arrays are overwritten) are
  independent of floating-point rounding, so the field of scalars is taken
  to be the computable field of rationals.

  Fields (class Field of field.py, not part of the sources at hand) are
  modelled from the spec: three Cartesian components per cell, flattened to
  a vector of length 3*N in the order used by the sparse operators of
  solverFIT3D.py, namely component-major with the x index fastest
  (the offsets 1, Nx, Nx*Ny of the difference matrices Px, Py, Pz determine
  this layout).  Grid arrays (grid3D.py, also not among the sources) are
  modelled from the spec as per-component arrays indexed by (i, j, k)
  together with the three boolean interior-plane flag arrays; addition of
  boolean numpy arrays is logical or, multiplication is logical and.
-/

namespace PyECT

/-- Value of scipy.constants.epsilon_0 as a rational (decimal literal 8.8541878128e-12). -/
def eps_0 : ℚ := 88541878128 / 10 ^ 22

/-- Value of scipy.constants.mu_0 as a rational (decimal literal 1.25663706212e-6). -/
def mu_0 : ℚ := 125663706212 / 10 ^ 17

/-- x index of a flat field index (x fastest). -/
def ixc (Nx : ℕ) (n : ℕ) : ℕ := n % Nx

/-- y index of a flat field index. -/
def iyc (Nx Ny : ℕ) (n : ℕ) : ℕ := (n / Nx) % Ny

/-- z index of a flat field index. -/
def izc (Nx Ny : ℕ) (n : ℕ) : ℕ := n / (Nx * Ny)

/-- A per-component geometric grid array: component, i, j, k. -/
abbrev GeomArr := Fin 3 → ℕ → ℕ → ℕ → ℚ

/-- A cell flag array: i, j, k. -/
abbrev Flags := ℕ → ℕ → ℕ → Bool

/-- Modelled from the spec: the part of the Grid3D object consumed by
SolverFIT3D: corrected lengths L, inverse areas iA, their tilde (dual grid)
counterparts tL and itA, and the three interior-plane flag arrays. -/
structure Grid (Nx Ny Nz : ℕ) where
  L : GeomArr
  iA : GeomArr
  tL : GeomArr
  itA : GeomArr
  flag_int_cell_yz : Flags
  flag_int_cell_zx : Flags
  flag_int_cell_xy : Flags

/-- Index of one scalar field component: (direction, flat cell index). -/
abbrev Idx (Nx Ny Nz : ℕ) := Fin 3 × Fin (Nx * Ny * Nz)

/-- A flattened field vector of length 3*N (toarray form of a Field). -/
abbrev Vec (Nx Ny Nz : ℕ) := Idx Nx Ny Nz → ℚ

/-- A 3N-by-3N operator. -/
abbrev Mat (Nx Ny Nz : ℕ) := Matrix (Idx Nx Ny Nz) (Idx Nx Ny Nz) ℚ

/-- Flatten a per-component (i,j,k) array to a 3N vector (Field.toarray). -/
def flatten (Nx Ny Nz : ℕ) (a : GeomArr) : Vec Nx Ny Nz :=
  fun p => a p.1 (ixc Nx (p.2 : ℕ)) (iyc Nx Ny (p.2 : ℕ)) (izc Nx Ny (p.2 : ℕ))

/-- The two-diagonal difference matrix diags([-1, 1], [0, off], shape=(N, N))
used for Px (off = 1), Py (off = Nx) and Pz (off = Nx*Ny). -/
def Pmat (Nx Ny Nz : ℕ) (off : ℕ) :
    Matrix (Fin (Nx * Ny * Nz)) (Fin (Nx * Ny * Nz)) ℚ :=
  fun n m =>
    if (m : ℕ) = (n : ℕ) then -1
    else if (m : ℕ) = (n : ℕ) + off then 1
    else 0

/-- Px = diags([-1,1],[0,1]). -/
def Px (Nx Ny Nz : ℕ) := Pmat Nx Ny Nz 1

/-- Py = diags([-1,1],[0,Nx]). -/
def Py (Nx Ny Nz : ℕ) := Pmat Nx Ny Nz Nx

/-- Pz = diags([-1,1],[0,Nx*Ny]). -/
def Pz (Nx Ny Nz : ℕ) := Pmat Nx Ny Nz (Nx * Ny)

/-- The curl matrix C assembled from the blocks
[[0, -Pz, Py], [Pz, 0, -Px], [-Py, Px, 0]]. -/
def curlC (Nx Ny Nz : ℕ) : Mat Nx Ny Nz := fun p q =>
  if p.1 = 0 then
    (if q.1 = 1 then -(Pz Nx Ny Nz p.2 q.2) else if q.1 = 2 then Py Nx Ny Nz p.2 q.2 else 0)
  else if p.1 = 1 then
    (if q.1 = 0 then Pz Nx Ny Nz p.2 q.2 else if q.1 = 2 then -(Px Nx Ny Nz p.2 q.2) else 0)
  else
    (if q.1 = 0 then -(Py Nx Ny Nz p.2 q.2) else if q.1 = 1 then Px Nx Ny Nz p.2 q.2 else 0)

/-- Errors that apply_bc_to_C can raise: the explicit Exception of the
periodic branch, and the uncaught NameError of the PEC and PMC branches. -/
inductive BCErr where
  | invalidPeriodic : BCErr
  | nameError : BCErr
deriving DecidableEq

/-- Python str.lower on the tag strings, written by mapping Char.toLower
over the character list so that it evaluates inside the kernel (the
String.toLower of core Lean is defined by well-founded recursion and does
not reduce there). -/
def pyLower (s : String) : String := String.mk (s.data.map Char.toLower)

/-- Case-insensitive test for the periodic tag: x.lower() == periodic. -/
def isPeriodic (s : String) : Bool := pyLower s == "periodic"

/-- Case-insensitive test for the PEC tags: x.lower() == electric or
x.lower() == pec. -/
def isPEC (s : String) : Bool := pyLower s == "electric" || pyLower s == "pec"

/-- Case-insensitive test for the PMC tags (the guard of the PMC branch):
x.lower() == magnetic or x.lower() == pmc. -/
def isPMCguard (s : String) : Bool := pyLower s == "magnetic" || pyLower s == "pmc"

/-- The periodic block of apply_bc_to_C: if any entry of bc_low is periodic,
the first axis whose low and high tags are both periodic has the last tL
layer overwritten with the first L layer and the last itA layers of the two
transverse components overwritten with the first iA layers; if no axis
qualifies, an Exception is raised.  Returns the (possibly overwritten)
tL and itA. -/
def periodicStep (Nx Ny Nz : ℕ) (bcl bch : Fin 3 → String)
    (L iA tL itA : GeomArr) : Except BCErr (GeomArr × GeomArr) :=
  if isPeriodic (bcl 0) || isPeriodic (bcl 1) || isPeriodic (bcl 2) then
    if isPeriodic (bcl 0) && isPeriodic (bch 0) then
      Except.ok
        (fun d i j k => if d = 0 ∧ i = Nx - 1 then L 0 0 j k else tL d i j k,
         fun d i j k => if (d = 1 ∨ d = 2) ∧ i = Nx - 1 then iA d 0 j k else itA d i j k)
    else if isPeriodic (bcl 1) && isPeriodic (bch 1) then
      Except.ok
        (fun d i j k => if d = 1 ∧ j = Ny - 1 then L 1 i 0 k else tL d i j k,
         fun d i j k => if (d = 0 ∨ d = 2) ∧ j = Ny - 1 then iA d i 0 k else itA d i j k)
    else if isPeriodic (bcl 2) && isPeriodic (bch 2) then
      Except.ok
        (fun d i j k => if d = 2 ∧ k = Nz - 1 then L 2 i j 0 else tL d i j k,
         fun d i j k => if (d = 0 ∨ d = 1) ∧ k = Nz - 1 then iA d i j 0 else itA d i j k)
    else Except.error BCErr.invalidPeriodic
  else Except.ok (tL, itA)

/-- The boundary-mask field assembled by the BC loops of apply_bc_to_C: a
field of ones in which, for every component d, the tangential boundary
layers are overwritten with the given per-side values (a later write wins,
so the z writes override the y writes which override the x writes, and
within one axis the high write overrides the low write). -/
def BCvec (Nx Ny Nz : ℕ) (xlo ylo zlo xhi yhi zhi : ℚ) : Vec Nx Ny Nz := fun p =>
  if p.1 ≠ 2 ∧ izc Nx Ny (p.2 : ℕ) = Nz - 1 then zhi
  else if p.1 ≠ 2 ∧ izc Nx Ny (p.2 : ℕ) = 0 then zlo
  else if p.1 ≠ 1 ∧ iyc Nx Ny (p.2 : ℕ) = Ny - 1 then yhi
  else if p.1 ≠ 1 ∧ iyc Nx Ny (p.2 : ℕ) = 0 then ylo
  else if p.1 ≠ 0 ∧ ixc Nx (p.2 : ℕ) = Nx - 1 then xhi
  else if p.1 ≠ 0 ∧ ixc Nx (p.2 : ℕ) = 0 then xlo
  else 1

/-- The PEC block of apply_bc_to_C: entered only when bc_low contains an
electric/pec tag; the per-side variables xlo..zhi are assigned (to 0) only
for the sides actually tagged electric/pec, and assembling the mask reads
all six of them, so any unassigned one raises a NameError.  On success the
columns of C are scaled by the mask. -/
def pecStep (Nx Ny Nz : ℕ) (bcl bch : Fin 3 → String) (C : Mat Nx Ny Nz) :
    Except BCErr (Mat Nx Ny Nz) :=
  if isPEC (bcl 0) || isPEC (bcl 1) || isPEC (bcl 2) then
    let xlo : Option ℚ := if isPEC (bcl 0) then some 0 else none
    let ylo : Option ℚ := if isPEC (bcl 1) then some 0 else none
    let zlo : Option ℚ := if isPEC (bcl 2) then some 0 else none
    let xhi : Option ℚ := if isPEC (bch 0) then some 0 else none
    let yhi : Option ℚ := if isPEC (bch 1) then some 0 else none
    let zhi : Option ℚ := if isPEC (bch 2) then some 0 else none
    match xlo, ylo, zlo, xhi, yhi, zhi with
    | some a, some b, some c, some d, some e, some f =>
        Except.ok (C * Matrix.diagonal (BCvec Nx Ny Nz a b c d e f))
    | _, _, _, _, _, _ => Except.error BCErr.nameError
  else Except.ok C

/-- The PMC block of apply_bc_to_C.  The guard is case-insensitive, but the
per-side assignments reproduce the source exactly: the pmc comparisons are
made without lowering, and the x-low condition reads bc_low[1] instead of
bc_low[0].  On success the rows of C are scaled by the mask. -/
def pmcStep (Nx Ny Nz : ℕ) (bcl bch : Fin 3 → String) (C : Mat Nx Ny Nz) :
    Except BCErr (Mat Nx Ny Nz) :=
  if isPMCguard (bcl 0) || isPMCguard (bcl 1) || isPMCguard (bcl 2) then
    let xlo : Option ℚ := if pyLower (bcl 0) == "magnetic" || bcl 1 == "pmc" then some 0 else none
    let ylo : Option ℚ := if pyLower (bcl 1) == "magnetic" || bcl 1 == "pmc" then some 0 else none
    let zlo : Option ℚ := if pyLower (bcl 2) == "magnetic" || bcl 2 == "pmc" then some 0 else none
    let xhi : Option ℚ := if pyLower (bch 0) == "magnetic" || bch 0 == "pmc" then some 0 else none
    let yhi : Option ℚ := if pyLower (bch 1) == "magnetic" || bch 1 == "pmc" then some 0 else none
    let zhi : Option ℚ := if pyLower (bch 2) == "magnetic" || bch 2 == "pmc" then some 0 else none
    match xlo, ylo, zlo, xhi, yhi, zhi with
    | some a, some b, some c, some d, some e, some f =>
        Except.ok (Matrix.diagonal (BCvec Nx Ny Nz a b c d e f) * C)
    | _, _, _, _, _, _ => Except.error BCErr.nameError
  else Except.ok C

/-- Result of apply_bc_to_C: the (possibly overwritten) tL and itA arrays
of the grid, and the masked curl matrix. -/
structure BCResult (Nx Ny Nz : ℕ) where
  tL : GeomArr
  itA : GeomArr
  C : Mat Nx Ny Nz

/-- apply_bc_to_C: the periodic block runs first (it can raise the explicit
Exception), then the PEC block, then the PMC block (each can raise a
NameError).  The tL and itA written by the periodic block alias the arrays
of the grid object, so the caller observes them overwritten. -/
def applyBC (Nx Ny Nz : ℕ) (bcl bch : Fin 3 → String) (g : Grid Nx Ny Nz)
    (C : Mat Nx Ny Nz) : Except BCErr (BCResult Nx Ny Nz) :=
  match periodicStep Nx Ny Nz bcl bch g.L g.iA g.tL g.itA with
  | Except.error e => Except.error e
  | Except.ok (tLn, itAn) =>
    match pecStep Nx Ny Nz bcl bch C with
    | Except.error e => Except.error e
    | Except.ok Ca =>
      match pmcStep Nx Ny Nz bcl bch Ca with
      | Except.error e => Except.error e
      | Except.ok Cb => Except.ok ⟨tLn, itAn, Cb⟩

/-- A column index of C carrying a tangential E component on a boundary
layer: component d on the first or last layer of an axis other than d. -/
def tangentialBdryE (Nx Ny Nz : ℕ) (q : Idx Nx Ny Nz) : Prop :=
  (q.1 ≠ 0 ∧ (ixc Nx (q.2 : ℕ) = 0 ∨ ixc Nx (q.2 : ℕ) = Nx - 1))
    ∨ (q.1 ≠ 1 ∧ (iyc Nx Ny (q.2 : ℕ) = 0 ∨ iyc Nx Ny (q.2 : ℕ) = Ny - 1))
    ∨ (q.1 ≠ 2 ∧ (izc Nx Ny (q.2 : ℕ) = 0 ∨ izc Nx Ny (q.2 : ℕ) = Nz - 1))

instance (Nx Ny Nz : ℕ) (q : Idx Nx Ny Nz) : Decidable (tangentialBdryE Nx Ny Nz q) := by
  unfold tangentialBdryE; infer_instance

/-- The SolverFIT3D object after construction: the time step, the grid it
aliases (with tL and itA possibly overwritten by the periodic branch), the
masked curl matrix, the geometric and material diagonal operators, the two
precomputed composite update operators, the three fields and the step_0
flag.  The numeric value of dt is taken as a parameter here because its
defining square-root formula lives over the reals; that formula is embedded
separately as dt_def. -/
structure SolverFIT3D (Nx Ny Nz : ℕ) where
  dt : ℚ
  grid : Grid Nx Ny Nz
  C : Mat Nx Ny Nz
  Ds : Mat Nx Ny Nz
  iDa : Mat Nx Ny Nz
  tDs : Mat Nx Ny Nz
  itDa : Mat Nx Ny Nz
  ieps : Vec Nx Ny Nz
  imu : Vec Nx Ny Nz
  iDeps : Mat Nx Ny Nz
  iDmu : Mat Nx Ny Nz
  tDsiDmuiDaC : Mat Nx Ny Nz
  itDaiDepsDstC : Mat Nx Ny Nz
  E : Vec Nx Ny Nz
  H : Vec Nx Ny Nz
  J : Vec Nx Ny Nz
  step_0 : Bool
  use_conductors : Bool

/-- flag_in_conductors of apply_conductors: the elementwise product (logical
and, for boolean arrays) of the three interior-plane flag arrays, the
slicings [:-1,:,:], [:,:-1,:], [:,:,:-1] only trimming the trailing plane of
each array so that the (i,j,k) indexing is unchanged. -/
def flag_in_conductors (Nx Ny Nz : ℕ) (g : Grid Nx Ny Nz) (n : ℕ) : Bool :=
  g.flag_int_cell_yz (ixc Nx n) (iyc Nx Ny n) (izc Nx Ny n)
    && g.flag_int_cell_zx (ixc Nx n) (iyc Nx Ny n) (izc Nx Ny n)
    && g.flag_int_cell_xy (ixc Nx n) (iyc Nx Ny n) (izc Nx Ny n)

/-- apply_conductors: multiply every component of the inverse-permittivity
field by the flag_in_conductors indicator. -/
def apply_conductors (Nx Ny Nz : ℕ) (g : Grid Nx Ny Nz) (ieps : Vec Nx Ny Nz) :
    Vec Nx Ny Nz :=
  fun p => ieps p * (if flag_in_conductors Nx Ny Nz g (p.2 : ℕ) then 1 else 0)

/-- The part of SolverFIT3D.__init__ that follows apply_bc_to_C: the vacuum
material operators (with apply_conductors applied to ieps when conductors
are in use, while imu is left untouched), the diagonal geometric operators
built from the post-boundary-condition arrays, and the two precomputed
composite update operators.  Fields are allocated (zero) and step_0 is set.
add_materials is a pass statement in the source and is omitted. -/
def assemble (Nx Ny Nz : ℕ) (g : Grid Nx Ny Nz) (r : BCResult Nx Ny Nz)
    (dt : ℚ) (use_conductors : Bool) : SolverFIT3D Nx Ny Nz :=
  let ieps0 : Vec Nx Ny Nz := fun _ => 1 / eps_0
  let ieps : Vec Nx Ny Nz :=
    if use_conductors then apply_conductors Nx Ny Nz g ieps0 else ieps0
  let imu : Vec Nx Ny Nz := fun _ => 1 / mu_0
  let Ds := Matrix.diagonal (flatten Nx Ny Nz g.L)
  let iDa := Matrix.diagonal (flatten Nx Ny Nz g.iA)
  let tDs := Matrix.diagonal (flatten Nx Ny Nz r.tL)
  let itDa := Matrix.diagonal (flatten Nx Ny Nz r.itA)
  let iDeps := Matrix.diagonal ieps
  let iDmu := Matrix.diagonal imu
  { dt := dt
    grid := { g with tL := r.tL, itA := r.itA }
    C := r.C
    Ds := Ds
    iDa := iDa
    tDs := tDs
    itDa := itDa
    ieps := ieps
    imu := imu
    iDeps := iDeps
    iDmu := iDmu
    tDsiDmuiDaC := tDs * iDmu * iDa * r.C
    itDaiDepsDstC := itDa * iDeps * Ds * r.C.transpose
    E := fun _ => 0
    H := fun _ => 0
    J := fun _ => 0
    step_0 := true
    use_conductors := use_conductors }

/-- SolverFIT3D.__init__: build the curl matrix, apply the boundary
conditions to it (and, through aliasing, to the tL and itA arrays of the
grid), then assemble the operators.  An exception escaping apply_bc_to_C
aborts construction. -/
def init (Nx Ny Nz : ℕ) (g : Grid Nx Ny Nz) (dt : ℚ) (bcl bch : Fin 3 → String)
    (use_conductors : Bool) : Except BCErr (SolverFIT3D Nx Ny Nz) :=
  (applyBC Nx Ny Nz bcl bch g (curlC Nx Ny Nz)).map
    (fun r => assemble Nx Ny Nz g r dt use_conductors)

/-- Index set zeroed in H by set_ghosts_to_0: for each direction d, the
components with d different from x on the last x layer, d different from y
on the last y layer, d different from z on the last z layer. -/
def ghostH (Nx Ny Nz : ℕ) (p : Idx Nx Ny Nz) : Prop :=
  (p.1 ≠ 0 ∧ ixc Nx (p.2 : ℕ) = Nx - 1)
    ∨ (p.1 ≠ 1 ∧ iyc Nx Ny (p.2 : ℕ) = Ny - 1)
    ∨ (p.1 ≠ 2 ∧ izc Nx Ny (p.2 : ℕ) = Nz - 1)

instance (Nx Ny Nz : ℕ) (p : Idx Nx Ny Nz) : Decidable (ghostH Nx Ny Nz p) := by
  unfold ghostH; infer_instance

/-- Index set zeroed in E by set_ghosts_to_0: the x component on the last x
layer, the y component on the last y layer, the z component on the last z
layer. -/
def ghostE (Nx Ny Nz : ℕ) (p : Idx Nx Ny Nz) : Prop :=
  (p.1 = 0 ∧ ixc Nx (p.2 : ℕ) = Nx - 1)
    ∨ (p.1 = 1 ∧ iyc Nx Ny (p.2 : ℕ) = Ny - 1)
    ∨ (p.1 = 2 ∧ izc Nx Ny (p.2 : ℕ) = Nz - 1)

instance (Nx Ny Nz : ℕ) (p : Idx Nx Ny Nz) : Decidable (ghostE Nx Ny Nz p) := by
  unfold ghostE; infer_instance

/-- set_ghosts_to_0: zero the ghost components of H and E (the writes all
store 0, so the loop order is immaterial). -/
def set_ghosts_to_0 (Nx Ny Nz : ℕ) (S : SolverFIT3D Nx Ny Nz) : SolverFIT3D Nx Ny Nz :=
  { S with
    H := fun p => if ghostH Nx Ny Nz p then 0 else S.H p
    E := fun p => if ghostE Nx Ny Nz p then 0 else S.E p }

/-- flag_cleanup of set_field_in_conductors_to_0: the elementwise sum of
the three boolean interior-plane flag arrays, which for numpy boolean
arrays is their logical or. -/
def flag_cleanup (Nx Ny Nz : ℕ) (g : Grid Nx Ny Nz) (n : ℕ) : Bool :=
  g.flag_int_cell_yz (ixc Nx n) (iyc Nx Ny n) (izc Nx Ny n)
    || g.flag_int_cell_zx (ixc Nx n) (iyc Nx Ny n) (izc Nx Ny n)
    || g.flag_int_cell_xy (ixc Nx n) (iyc Nx Ny n) (izc Nx Ny n)

/-- set_field_in_conductors_to_0: multiply every component of H and E by
the flag_cleanup indicator. -/
def set_field_in_conductors_to_0 (Nx Ny Nz : ℕ) (S : SolverFIT3D Nx Ny Nz) :
    SolverFIT3D Nx Ny Nz :=
  { S with
    H := fun p => S.H p * (if flag_cleanup Nx Ny Nz S.grid (p.2 : ℕ) then 1 else 0)
    E := fun p => S.E p * (if flag_cleanup Nx Ny Nz S.grid (p.2 : ℕ) then 1 else 0) }

/-- one_step: on the first call only, clean up the ghost cells and (when
conductors are in use) the field inside conductors and clear step_0; then
H -= dt * tDsiDmuiDaC * E; then E += dt * (itDaiDepsDstC * H - iDeps * J),
the E update reading the already-updated H. -/
def one_step (Nx Ny Nz : ℕ) (S : SolverFIT3D Nx Ny Nz) : SolverFIT3D Nx Ny Nz :=
  let S1 :=
    if S.step_0 then
      let Sa := set_ghosts_to_0 Nx Ny Nz S
      let Sb := if Sa.use_conductors then set_field_in_conductors_to_0 Nx Ny Nz Sa else Sa
      { Sb with step_0 := false }
    else S
  let S2 := { S1 with H := fun p => S1.H p - S.dt * (S.tDsiDmuiDaC.mulVec S1.E) p }
  { S2 with
    E := fun p =>
      S2.E p + S.dt * ((S.itDaiDepsDstC.mulVec S2.H) p - (S.iDeps.mulVec S2.J) p) }

/-- Value of scipy.constants.c, the vacuum speed of light, exact as a float. -/
def c_light : ℝ := 299792458

/-- The Courant time step computed on line 19 of SolverFIT3D.__init__:
dt = cfln / (c * sqrt(1/dx^2 + 1/dy^2 + 1/dz^2)).  This one definition is
over the reals (for the square root) and therefore noncomputable; every
operational part of the embedding stays computable. -/
noncomputable def dt_def (cfln dx dy dz : ℝ) : ℝ :=
  cfln / (c_light * Real.sqrt (1 / dx ^ 2 + 1 / dy ^ 2 + 1 / dz ^ 2))

/-- A cell fully inside a conductor in the sense of the spec: all three
interior-plane flags are zero there. -/
def excludedCell (Nx Ny Nz : ℕ) (g : Grid Nx Ny Nz) (n : ℕ) : Prop :=
  g.flag_int_cell_yz (ixc Nx n) (iyc Nx Ny n) (izc Nx Ny n) = false
    ∧ g.flag_int_cell_zx (ixc Nx n) (iyc Nx Ny n) (izc Nx Ny n) = false
    ∧ g.flag_int_cell_xy (ixc Nx n) (iyc Nx Ny n) (izc Nx Ny n) = false

instance (Nx Ny Nz : ℕ) (g : Grid Nx Ny Nz) (n : ℕ) :
    Decidable (excludedCell Nx Ny Nz g n) := by
  unfold excludedCell; infer_instance

/-- The H field after the one-time cleanup described by the stepping
contract of the spec: on the first call only, ghost components and (when
conductors are in use) components of cells fully inside conductors are
zeroed; otherwise H is untouched.  Stated from the claim wording, to be
compared with what one_step computes. -/
def specCleanH (Nx Ny Nz : ℕ) (S : SolverFIT3D Nx Ny Nz) : Vec Nx Ny Nz := fun p =>
  if S.step_0 = true
      ∧ (ghostH Nx Ny Nz p
          ∨ (S.use_conductors = true ∧ excludedCell Nx Ny Nz S.grid (p.2 : ℕ))) then 0
  else S.H p

/-- The E field after the one-time cleanup, stated from the claim wording. -/
def specCleanE (Nx Ny Nz : ℕ) (S : SolverFIT3D Nx Ny Nz) : Vec Nx Ny Nz := fun p =>
  if S.step_0 = true
      ∧ (ghostE Nx Ny Nz p
          ∨ (S.use_conductors = true ∧ excludedCell Nx Ny Nz S.grid (p.2 : ℕ))) then 0
  else S.E p

/-- The H value after one advance as described by the claim: the cleaned H
minus dt times the H-advance operator applied to the cleaned E. -/
def specH (Nx Ny Nz : ℕ) (S : SolverFIT3D Nx Ny Nz) : Vec Nx Ny Nz := fun p =>
  specCleanH Nx Ny Nz S p - S.dt * (S.tDsiDmuiDaC.mulVec (specCleanE Nx Ny Nz S)) p

/-- The E value after one advance as described by the claim: the cleaned E
plus dt times (E-advance operator applied to the updated H, minus the
inverse-permittivity operator applied to J). -/
def specE (Nx Ny Nz : ℕ) (S : SolverFIT3D Nx Ny Nz) : Vec Nx Ny Nz := fun p =>
  specCleanE Nx Ny Nz S p
    + S.dt * ((S.itDaiDepsDstC.mulVec (specH Nx Ny Nz S)) p - (S.iDeps.mulVec S.J) p)

/-- Concrete flat index 0 on the 1x1x1 test grid. -/
def idx0 : Fin (1 * 1 * 1) := ⟨0, Nat.one_pos⟩

/-- Concrete 1x1x1 test grid with unit geometry and all flags set (vacuum). -/
def gOnes : Grid 1 1 1 :=
  { L := fun _ _ _ _ => 1
    iA := fun _ _ _ _ => 1
    tL := fun _ _ _ _ => 1
    itA := fun _ _ _ _ => 1
    flag_int_cell_yz := fun _ _ _ => true
    flag_int_cell_zx := fun _ _ _ => true
    flag_int_cell_xy := fun _ _ _ => true }

/-- Concrete 1x1x1 test grid whose single cell is fully inside a conductor:
all flags cleared and all corrected lengths and areas zero. -/
def gZero : Grid 1 1 1 :=
  { L := fun _ _ _ _ => 0
    iA := fun _ _ _ _ => 0
    tL := fun _ _ _ _ => 0
    itA := fun _ _ _ _ => 0
    flag_int_cell_yz := fun _ _ _ => false
    flag_int_cell_zx := fun _ _ _ => false
    flag_int_cell_xy := fun _ _ _ => false }

/-- Concrete 1x1x1 test grid whose tL array (value 5) differs from its L
array (value 7), to observe the periodic overwrite. -/
def gPer : Grid 1 1 1 :=
  { L := fun _ _ _ _ => 7
    iA := fun _ _ _ _ => 1
    tL := fun _ _ _ _ => 5
    itA := fun _ _ _ _ => 1
    flag_int_cell_yz := fun _ _ _ => true
    flag_int_cell_zx := fun _ _ _ => true
    flag_int_cell_xy := fun _ _ _ => true }

/-- Concrete apply_bc_to_C result with unit geometry and the raw curl. -/
def rOnes : BCResult 1 1 1 :=
  { tL := fun _ _ _ _ => 1, itA := fun _ _ _ _ => 1, C := curlC 1 1 1 }

/-- Concrete apply_bc_to_C result with zero geometry and the raw curl. -/
def rZero : BCResult 1 1 1 :=
  { tL := fun _ _ _ _ => 0, itA := fun _ _ _ _ => 0, C := curlC 1 1 1 }

/-- Boundary tags: periodic everywhere. -/
def bcPer : Fin 3 → String := fun _ => "periodic"

/-- Boundary tags: pml everywhere. -/
def bcPml : Fin 3 → String := fun _ => "pml"

/-- Boundary tags: pec everywhere. -/
def bcPecAll : Fin 3 → String := fun _ => "pec"

/-- Boundary tags for the high sides with pec on x only, periodic on y, z. -/
def bcHighPec : Fin 3 → String := fun e =>
  if e = 0 then "pec" else "periodic"

/-- Low boundary tags with mixed-case PEC spellings. -/
def bcLw : Fin 3 → String := fun e =>
  if e = 0 then "PEC" else if e = 1 then "Electric" else "pec"

/-- High boundary tags with mixed-case PEC spellings. -/
def bcHw : Fin 3 → String := fun e =>
  if e = 0 then "electric" else if e = 1 then "pEc" else "ELECTRIC"

/-- Low boundary tags reproducing the claim C10 example: pec on x low,
magnetic elsewhere. -/
def bcC10L : Fin 3 → String := fun e =>
  if e = 0 then "pec" else "magnetic"

/-- High boundary tags for the claim C10 example: magnetic everywhere. -/
def bcC10H : Fin 3 → String := fun _ => "magnetic"

/-- Concrete solver state with step_0 already cleared, for witnesses. -/
def S1test : SolverFIT3D 1 1 1 :=
  { assemble 1 1 1 gOnes rOnes 1 true with step_0 := false }

lemma one_step_step_0 (Nx Ny Nz : ℕ) (S : SolverFIT3D Nx Ny Nz) :
    (one_step Nx Ny Nz S).step_0 = false := by
  cases hs : S.step_0 <;>
    simp [one_step, set_ghosts_to_0, set_field_in_conductors_to_0, hs]

lemma one_step_cleanE (Nx Ny Nz : ℕ) (S : SolverFIT3D Nx Ny Nz) :
    (if S.step_0 then
        let Sa := set_ghosts_to_0 Nx Ny Nz S
        let Sb := if Sa.use_conductors then set_field_in_conductors_to_0 Nx Ny Nz Sa else Sa
        { Sb with step_0 := false }
      else S).E = specCleanE Nx Ny Nz S := by
  funext p
  cases hs : S.step_0 with
  | false => simp [specCleanE, hs]
  | true =>
    cases hu : S.use_conductors with
    | false =>
      simp [set_ghosts_to_0, set_field_in_conductors_to_0, specCleanE, hs, hu]
    | true =>
      simp only [set_ghosts_to_0, set_field_in_conductors_to_0, specCleanE, hs, hu,
        if_true, true_and]
      by_cases hf : flag_cleanup Nx Ny Nz S.grid (p.2 : ℕ)
      · have hex : ¬ excludedCell Nx Ny Nz S.grid (p.2 : ℕ) := by
          simp only [flag_cleanup, Bool.or_eq_true] at hf
          simp only [excludedCell]
          rcases hf with (h | h) | h <;> simp [h]
        by_cases hg : ghostE Nx Ny Nz p <;> simp [hf, hg, hex]
      · have hex : excludedCell Nx Ny Nz S.grid (p.2 : ℕ) := by
          simp only [flag_cleanup, Bool.or_eq_true, not_or, Bool.not_eq_true] at hf
          exact ⟨hf.1.1, hf.1.2, hf.2⟩
        by_cases hg : ghostE Nx Ny Nz p <;> simp [hf, hg, hex]

lemma one_step_cleanH (Nx Ny Nz : ℕ) (S : SolverFIT3D Nx Ny Nz) :
    (if S.step_0 then
        let Sa := set_ghosts_to_0 Nx Ny Nz S
        let Sb := if Sa.use_conductors then set_field_in_conductors_to_0 Nx Ny Nz Sa else Sa
        { Sb with step_0 := false }
      else S).H = specCleanH Nx Ny Nz S := by
  funext p
  cases hs : S.step_0 with
  | false => simp [specCleanH, hs]
  | true =>
    cases hu : S.use_conductors with
    | false =>
      simp [set_ghosts_to_0, set_field_in_conductors_to_0, specCleanH, hs, hu]
    | true =>
      simp only [set_ghosts_to_0, set_field_in_conductors_to_0, specCleanH, hs, hu,
        if_true, true_and]
      by_cases hf : flag_cleanup Nx Ny Nz S.grid (p.2 : ℕ)
      · have hex : ¬ excludedCell Nx Ny Nz S.grid (p.2 : ℕ) := by
          simp only [flag_cleanup, Bool.or_eq_true] at hf
          simp only [excludedCell]
          rcases hf with (h | h) | h <;> simp [h]
        by_cases hg : ghostH Nx Ny Nz p <;> simp [hf, hg, hex]
      · have hex : excludedCell Nx Ny Nz S.grid (p.2 : ℕ) := by
          simp only [flag_cleanup, Bool.or_eq_true, not_or, Bool.not_eq_true] at hf
          exact ⟨hf.1.1, hf.1.2, hf.2⟩
        by_cases hg : ghostH Nx Ny Nz p <;> simp [hf, hg, hex]

lemma one_step_H_eq (Nx Ny Nz : ℕ) (S : SolverFIT3D Nx Ny Nz) :
    (one_step Nx Ny Nz S).H = specH Nx Ny Nz S := by
  funext p
  show (if S.step_0 then _ else S).H p
      - S.dt * (S.tDsiDmuiDaC.mulVec (if S.step_0 then _ else S).E) p = _
  rw [one_step_cleanH, one_step_cleanE]
  rfl

lemma one_step_E_eq (Nx Ny Nz : ℕ) (S : SolverFIT3D Nx Ny Nz) :
    (one_step Nx Ny Nz S).E = specE Nx Ny Nz S := by
  funext p
  show (if S.step_0 then _ else S).E p
      + S.dt * ((S.itDaiDepsDstC.mulVec (one_step Nx Ny Nz S).H) p
          - (S.iDeps.mulVec (if S.step_0 then _ else S).J) p) = _
  rw [one_step_cleanE, one_step_H_eq]
  have hJ : (if S.step_0 then
      let Sa := set_ghosts_to_0 Nx Ny Nz S
      let Sb := if Sa.use_conductors then set_field_in_conductors_to_0 Nx Ny Nz Sa else Sa
      ({ Sb with step_0 := false } : SolverFIT3D Nx Ny Nz)
    else S).J = S.J := by
    cases hs : S.step_0 <;> cases hu : S.use_conductors <;>
      simp [set_ghosts_to_0, set_field_in_conductors_to_0, hs, hu]
  rw [hJ]
  rfl

lemma one_step_ops (Nx Ny Nz : ℕ) (S : SolverFIT3D Nx Ny Nz) :
    (one_step Nx Ny Nz S).dt = S.dt
    ∧ (one_step Nx Ny Nz S).grid = S.grid
    ∧ (one_step Nx Ny Nz S).C = S.C
    ∧ (one_step Nx Ny Nz S).Ds = S.Ds
    ∧ (one_step Nx Ny Nz S).iDa = S.iDa
    ∧ (one_step Nx Ny Nz S).tDs = S.tDs
    ∧ (one_step Nx Ny Nz S).itDa = S.itDa
    ∧ (one_step Nx Ny Nz S).ieps = S.ieps
    ∧ (one_step Nx Ny Nz S).imu = S.imu
    ∧ (one_step Nx Ny Nz S).iDeps = S.iDeps
    ∧ (one_step Nx Ny Nz S).iDmu = S.iDmu
    ∧ (one_step Nx Ny Nz S).tDsiDmuiDaC = S.tDsiDmuiDaC
    ∧ (one_step Nx Ny Nz S).itDaiDepsDstC = S.itDaiDepsDstC
    ∧ (one_step Nx Ny Nz S).J = S.J
    ∧ (one_step Nx Ny Nz S).use_conductors = S.use_conductors := by
  cases hs : S.step_0 <;> cases hu : S.use_conductors <;>
    simp [one_step, set_ghosts_to_0, set_field_in_conductors_to_0, hs, hu]

lemma mulVec_four (Nx Ny Nz : ℕ) (A B C D : Mat Nx Ny Nz) (v : Vec Nx Ny Nz) :
    (A * B * C * D).mulVec v = A.mulVec (B.mulVec (C.mulVec (D.mulVec v))) := by
  rw [Matrix.mulVec_mulVec, Matrix.mulVec_mulVec, Matrix.mulVec_mulVec]

lemma assemble_Hop_row (Nx Ny Nz : ℕ) (g : Grid Nx Ny Nz) (r : BCResult Nx Ny Nz)
    (dt : ℚ) (uc : Bool) (v : Vec Nx Ny Nz) (p : Idx Nx Ny Nz)
    (h : r.tL p.1 (ixc Nx (p.2 : ℕ)) (iyc Nx Ny (p.2 : ℕ)) (izc Nx Ny (p.2 : ℕ)) = 0) :
    ((assemble Nx Ny Nz g r dt uc).tDsiDmuiDaC.mulVec v) p = 0 := by
  have hd : (assemble Nx Ny Nz g r dt uc).tDsiDmuiDaC
      = Matrix.diagonal (flatten Nx Ny Nz r.tL)
        * Matrix.diagonal ((assemble Nx Ny Nz g r dt uc).imu)
        * Matrix.diagonal (flatten Nx Ny Nz g.iA) * r.C := rfl
  rw [hd, mulVec_four, Matrix.mulVec_diagonal]
  have hf : flatten Nx Ny Nz r.tL p = 0 := h
  rw [hf, zero_mul]

lemma assemble_ieps_eq (Nx Ny Nz : ℕ) (g : Grid Nx Ny Nz) (r : BCResult Nx Ny Nz)
    (dt : ℚ) (p : Idx Nx Ny Nz) :
    (assemble Nx Ny Nz g r dt true).ieps p
      = (1 / eps_0) * (if flag_in_conductors Nx Ny Nz g (p.2 : ℕ) then 1 else 0) := rfl

lemma assemble_ieps_zero (Nx Ny Nz : ℕ) (g : Grid Nx Ny Nz) (r : BCResult Nx Ny Nz)
    (dt : ℚ) (p : Idx Nx Ny Nz) (hex : excludedCell Nx Ny Nz g (p.2 : ℕ)) :
    (assemble Nx Ny Nz g r dt true).ieps p = 0 := by
  rw [assemble_ieps_eq]
  rcases hex with ⟨h1, h2, h3⟩
  simp [flag_in_conductors, h1]

lemma assemble_Eop_row (Nx Ny Nz : ℕ) (g : Grid Nx Ny Nz) (r : BCResult Nx Ny Nz)
    (dt : ℚ) (v : Vec Nx Ny Nz) (p : Idx Nx Ny Nz)
    (hex : excludedCell Nx Ny Nz g (p.2 : ℕ)) :
    ((assemble Nx Ny Nz g r dt true).itDaiDepsDstC.mulVec v) p = 0 := by
  have hd : (assemble Nx Ny Nz g r dt true).itDaiDepsDstC
      = Matrix.diagonal (flatten Nx Ny Nz r.itA)
        * Matrix.diagonal ((assemble Nx Ny Nz g r dt true).ieps)
        * Matrix.diagonal (flatten Nx Ny Nz g.L) * r.C.transpose := rfl
  rw [hd, mulVec_four, Matrix.mulVec_diagonal, Matrix.mulVec_diagonal,
    assemble_ieps_zero Nx Ny Nz g r dt p hex, zero_mul, mul_zero]

lemma assemble_iDeps_row (Nx Ny Nz : ℕ) (g : Grid Nx Ny Nz) (r : BCResult Nx Ny Nz)
    (dt : ℚ) (w : Vec Nx Ny Nz) (p : Idx Nx Ny Nz)
    (hex : excludedCell Nx Ny Nz g (p.2 : ℕ)) :
    ((assemble Nx Ny Nz g r dt true).iDeps.mulVec w) p = 0 := by
  have hd : (assemble Nx Ny Nz g r dt true).iDeps
      = Matrix.diagonal ((assemble Nx Ny Nz g r dt true).ieps) := rfl
  rw [hd, Matrix.mulVec_diagonal, assemble_ieps_zero Nx Ny Nz g r dt p hex, zero_mul]

lemma step_zero_cell (Nx Ny Nz : ℕ) (g : Grid Nx Ny Nz) (r : BCResult Nx Ny Nz)
    (dt : ℚ) (T : SolverFIT3D Nx Ny Nz) (n : Fin (Nx * Ny * Nz))
    (hop1 : T.tDsiDmuiDaC = (assemble Nx Ny Nz g r dt true).tDsiDmuiDaC)
    (hop2 : T.itDaiDepsDstC = (assemble Nx Ny Nz g r dt true).itDaiDepsDstC)
    (hop3 : T.iDeps = (assemble Nx Ny Nz g r dt true).iDeps)
    (hgrid : T.grid = (assemble Nx Ny Nz g r dt true).grid)
    (huc : T.use_conductors = true)
    (hex : excludedCell Nx Ny Nz g (n : ℕ))
    (htL : ∀ e : Fin 3, r.tL e (ixc Nx (n : ℕ)) (iyc Nx Ny (n : ℕ)) (izc Nx Ny (n : ℕ)) = 0)
    (hzero : T.step_0 = true ∨ (∀ d : Fin 3, T.H (d, n) = 0 ∧ T.E (d, n) = 0))
    (d : Fin 3) :
    (one_step Nx Ny Nz T).H (d, n) = 0 ∧ (one_step Nx Ny Nz T).E (d, n) = 0 := by
  have hexT : excludedCell Nx Ny Nz T.grid (n : ℕ) := by rw [hgrid]; exact hex
  have hrowH : (T.tDsiDmuiDaC.mulVec (specCleanE Nx Ny Nz T)) (d, n) = 0 := by
    rw [hop1]; exact assemble_Hop_row Nx Ny Nz g r dt true _ (d, n) (htL d)
  have hch : specCleanH Nx Ny Nz T (d, n) = 0 := by
    rcases hzero with hs | hz
    · unfold specCleanH
      have : (ghostH Nx Ny Nz (d, n)
          ∨ (T.use_conductors = true ∧ excludedCell Nx Ny Nz T.grid ((d, n).2 : ℕ))) :=
        Or.inr ⟨huc, hexT⟩
      simp [hs, this]
    · unfold specCleanH
      split <;> simp [(hz d).1]
  have hce : specCleanE Nx Ny Nz T (d, n) = 0 := by
    rcases hzero with hs | hz
    · unfold specCleanE
      have : (ghostE Nx Ny Nz (d, n)
          ∨ (T.use_conductors = true ∧ excludedCell Nx Ny Nz T.grid ((d, n).2 : ℕ))) :=
        Or.inr ⟨huc, hexT⟩
      simp [hs, this]
    · unfold specCleanE
      split <;> simp [(hz d).2]
  have hH : (one_step Nx Ny Nz T).H (d, n) = 0 := by
    rw [one_step_H_eq]
    unfold specH
    rw [hch, hrowH, mul_zero, sub_zero]
  refine ⟨hH, ?_⟩
  rw [one_step_E_eq]
  unfold specE
  have hrowE : (T.itDaiDepsDstC.mulVec (specH Nx Ny Nz T)) (d, n) = 0 := by
    rw [hop2]; exact assemble_Eop_row Nx Ny Nz g r dt _ (d, n) hex
  have hrowJ : (T.iDeps.mulVec T.J) (d, n) = 0 := by
    rw [hop3]; exact assemble_iDeps_row Nx Ny Nz g r dt _ (d, n) hex
  rw [hce, hrowE, hrowJ, sub_zero, mul_zero, add_zero]

lemma iterate_ops (Nx Ny Nz : ℕ) (S : SolverFIT3D Nx Ny Nz) : ∀ k : ℕ,
    ((one_step Nx Ny Nz)^[k] S).tDsiDmuiDaC = S.tDsiDmuiDaC
    ∧ ((one_step Nx Ny Nz)^[k] S).itDaiDepsDstC = S.itDaiDepsDstC
    ∧ ((one_step Nx Ny Nz)^[k] S).iDeps = S.iDeps
    ∧ ((one_step Nx Ny Nz)^[k] S).grid = S.grid
    ∧ ((one_step Nx Ny Nz)^[k] S).use_conductors = S.use_conductors := by
  intro k
  induction k with
  | zero => exact ⟨rfl, rfl, rfl, rfl, rfl⟩
  | succ k ih =>
    obtain ⟨ih1, ih2, ih3, ih4, ih5⟩ := ih
    obtain ⟨_, hgrid, _, _, _, _, _, _, _, hiDeps, _, hHop, hEop, _, huc⟩ :=
      one_step_ops Nx Ny Nz ((one_step Nx Ny Nz)^[k] S)
    rw [Function.iterate_succ_apply']
    exact ⟨hHop.trans ih1, hEop.trans ih2, hiDeps.trans ih3, hgrid.trans ih4, huc.trans ih5⟩

lemma C3_aux (Nx Ny Nz : ℕ) (g : Grid Nx Ny Nz) (r : BCResult Nx Ny Nz) (dt : ℚ)
    (E0 H0 J0 : Vec Nx Ny Nz) (n : Fin (Nx * Ny * Nz))
    (hex : excludedCell Nx Ny Nz g (n : ℕ))
    (htL : ∀ e : Fin 3, r.tL e (ixc Nx (n : ℕ)) (iyc Nx Ny (n : ℕ)) (izc Nx Ny (n : ℕ)) = 0) :
    ∀ k : ℕ, ∀ d : Fin 3,
      ((one_step Nx Ny Nz)^[k + 1]
          { assemble Nx Ny Nz g r dt true with E := E0, H := H0, J := J0 }).H (d, n) = 0
      ∧ ((one_step Nx Ny Nz)^[k + 1]
          { assemble Nx Ny Nz g r dt true with E := E0, H := H0, J := J0 }).E (d, n) = 0 := by
  intro k
  induction k with
  | zero =>
    intro d
    rw [Function.iterate_succ_apply', Function.iterate_zero_apply]
    exact step_zero_cell Nx Ny Nz g r dt
      ({ assemble Nx Ny Nz g r dt true with E := E0, H := H0, J := J0 }) n
      rfl rfl rfl rfl rfl hex htL (Or.inl rfl) d
  | succ k ih =>
    intro d
    rw [Function.iterate_succ_apply']
    obtain ⟨h1, h2, h3, h4, h5⟩ := iterate_ops Nx Ny Nz
      { assemble Nx Ny Nz g r dt true with E := E0, H := H0, J := J0 } (k + 1)
    exact step_zero_cell Nx Ny Nz g r dt _ n h1 h2 h3 h4 h5 hex htL (Or.inr ih) d

set_option maxHeartbeats 2000000 in
lemma BCvec_mask_zero_iff (Nx Ny Nz : ℕ) (q : Idx Nx Ny Nz) :
    (BCvec Nx Ny Nz 0 0 0 0 0 0 q = 0 ↔ tangentialBdryE Nx Ny Nz q)
    ∧ (BCvec Nx Ny Nz 0 0 0 0 0 0 q = 0 ∨ BCvec Nx Ny Nz 0 0 0 0 0 0 q = 1) := by
  unfold BCvec tangentialBdryE
  split_ifs with h1 h2 h3 h4 h5 h6 <;>
    simp only [eq_self_iff_true, true_iff, iff_true, true_or, or_true, one_ne_zero,
      false_iff, false_or, or_false, not_or] <;>
    tauto

lemma isPEC_ne_periodic (s : String) (h : isPEC s = true) : isPeriodic s = false := by
  simp only [isPEC, Bool.or_eq_true, beq_iff_eq] at h
  simp only [isPeriodic, beq_eq_false_iff_ne, ne_eq]
  rcases h with h | h <;> rw [h] <;> decide

lemma isPEC_ne_pmcguard (s : String) (h : isPEC s = true) : isPMCguard s = false := by
  simp only [isPEC, Bool.or_eq_true, beq_iff_eq] at h
  simp only [isPMCguard, Bool.or_eq_false_iff, beq_eq_false_iff_ne, ne_eq]
  rcases h with h | h <;> rw [h] <;> exact ⟨by decide, by decide⟩

lemma periodicStep_skip (Nx Ny Nz : ℕ) (bcl bch : Fin 3 → String) (L iA tL itA : GeomArr)
    (h0 : isPeriodic (bcl 0) = false) (h1 : isPeriodic (bcl 1) = false)
    (h2 : isPeriodic (bcl 2) = false) :
    periodicStep Nx Ny Nz bcl bch L iA tL itA = Except.ok (tL, itA) := by
  unfold periodicStep
  rw [h0, h1, h2]
  simp

lemma pecStep_all (Nx Ny Nz : ℕ) (bcl bch : Fin 3 → String) (C : Mat Nx Ny Nz)
    (h0 : isPEC (bcl 0) = true) (h1 : isPEC (bcl 1) = true) (h2 : isPEC (bcl 2) = true)
    (h3 : isPEC (bch 0) = true) (h4 : isPEC (bch 1) = true) (h5 : isPEC (bch 2) = true) :
    pecStep Nx Ny Nz bcl bch C
      = Except.ok (C * Matrix.diagonal (BCvec Nx Ny Nz 0 0 0 0 0 0)) := by
  unfold pecStep
  rw [h0, h1, h2, h3, h4, h5]
  simp

lemma pmcStep_skip (Nx Ny Nz : ℕ) (bcl bch : Fin 3 → String) (C : Mat Nx Ny Nz)
    (h0 : isPMCguard (bcl 0) = false) (h1 : isPMCguard (bcl 1) = false)
    (h2 : isPMCguard (bcl 2) = false) :
    pmcStep Nx Ny Nz bcl bch C = Except.ok C := by
  unfold pmcStep
  rw [h0, h1, h2]
  simp

lemma periodicStep_x (Nx Ny Nz : ℕ) (bcl bch : Fin 3 → String) (L iA tL itA : GeomArr)
    (h0 : isPeriodic (bcl 0) = true) (h0h : isPeriodic (bch 0) = true) :
    periodicStep Nx Ny Nz bcl bch L iA tL itA = Except.ok
      (fun d i j k => if d = 0 ∧ i = Nx - 1 then L 0 0 j k else tL d i j k,
       fun d i j k => if (d = 1 ∨ d = 2) ∧ i = Nx - 1 then iA d 0 j k else itA d i j k) := by
  unfold periodicStep
  rw [h0, h0h]
  simp

lemma periodicStep_y (Nx Ny Nz : ℕ) (bcl bch : Fin 3 → String) (L iA tL itA : GeomArr)
    (h0 : (isPeriodic (bcl 0) && isPeriodic (bch 0)) = false)
    (h1 : isPeriodic (bcl 1) = true) (h1h : isPeriodic (bch 1) = true) :
    periodicStep Nx Ny Nz bcl bch L iA tL itA = Except.ok
      (fun d i j k => if d = 1 ∧ j = Ny - 1 then L 1 i 0 k else tL d i j k,
       fun d i j k => if (d = 0 ∨ d = 2) ∧ j = Ny - 1 then iA d i 0 k else itA d i j k) := by
  unfold periodicStep
  rw [h1, h1h]
  simp [h0]

lemma periodicStep_z (Nx Ny Nz : ℕ) (bcl bch : Fin 3 → String) (L iA tL itA : GeomArr)
    (h0 : (isPeriodic (bcl 0) && isPeriodic (bch 0)) = false)
    (h1 : (isPeriodic (bcl 1) && isPeriodic (bch 1)) = false)
    (h2 : isPeriodic (bcl 2) = true) (h2h : isPeriodic (bch 2) = true) :
    periodicStep Nx Ny Nz bcl bch L iA tL itA = Except.ok
      (fun d i j k => if d = 2 ∧ k = Nz - 1 then L 2 i j 0 else tL d i j k,
       fun d i j k => if (d = 0 ∨ d = 1) ∧ k = Nz - 1 then iA d i j 0 else itA d i j k) := by
  unfold periodicStep
  rw [h2, h2h]
  simp [h0, h1]

lemma applyBC_map_pair (Nx Ny Nz : ℕ) (bcl bch : Fin 3 → String) (g : Grid Nx Ny Nz)
    (Cin : Mat Nx Ny Nz) (tLx itAx : GeomArr) {α : Type}
    (hps : periodicStep Nx Ny Nz bcl bch g.L g.iA g.tL g.itA = Except.ok (tLx, itAx))
    (F : BCResult Nx Ny Nz → α) (c : α)
    (hF : ∀ Cb : Mat Nx Ny Nz, F ⟨tLx, itAx, Cb⟩ = c) :
    ((applyBC Nx Ny Nz bcl bch g Cin).map F)
      = ((applyBC Nx Ny Nz bcl bch g Cin).map (fun _ => c)) := by
  simp only [applyBC, hps]
  cases hpec : pecStep Nx Ny Nz bcl bch Cin with
  | error e => simp [hpec, Except.map]
  | ok Ca =>
    cases hpmc : pmcStep Nx Ny Nz bcl bch Ca with
    | error e => simp [hpec, hpmc, Except.map]
    | ok Cb => simp [hpec, hpmc, Except.map, hF]

lemma pecStep_error_name (Nx Ny Nz : ℕ) (bcl bch : Fin 3 → String) (C : Mat Nx Ny Nz)
    (e : BCErr) (h : pecStep Nx Ny Nz bcl bch C = Except.error e) :
    e = BCErr.nameError := by
  unfold pecStep at h
  split at h
  · split at h <;> split at h <;> split at h <;> split at h <;> split at h <;>
      split at h <;> simp_all
  · simp_all

lemma pmcStep_error_name (Nx Ny Nz : ℕ) (bcl bch : Fin 3 → String) (C : Mat Nx Ny Nz)
    (e : BCErr) (h : pmcStep Nx Ny Nz bcl bch C = Except.error e) :
    e = BCErr.nameError := by
  unfold pmcStep at h
  split at h
  · split at h <;> split at h <;> split at h <;> split at h <;> split at h <;>
      split at h <;> simp_all
  · simp_all

lemma periodicStep_invalid_iff (Nx Ny Nz : ℕ) (bcl bch : Fin 3 → String)
    (L iA tL itA : GeomArr) :
    periodicStep Nx Ny Nz bcl bch L iA tL itA = Except.error BCErr.invalidPeriodic
      ↔ ((isPeriodic (bcl 0) || isPeriodic (bcl 1) || isPeriodic (bcl 2)) = true
          ∧ (isPeriodic (bcl 0) && isPeriodic (bch 0)) = false
          ∧ (isPeriodic (bcl 1) && isPeriodic (bch 1)) = false
          ∧ (isPeriodic (bcl 2) && isPeriodic (bch 2)) = false) := by
  unfold periodicStep
  cases h0 : isPeriodic (bcl 0) && isPeriodic (bch 0) <;>
    cases h1 : isPeriodic (bcl 1) && isPeriodic (bch 1) <;>
      cases h2 : isPeriodic (bcl 2) && isPeriodic (bch 2) <;>
        cases hg : (isPeriodic (bcl 0) || isPeriodic (bcl 1) || isPeriodic (bcl 2)) <;>
          simp [h0, h1, h2, hg]

lemma applyBC_invalid_iff (Nx Ny Nz : ℕ) (bcl bch : Fin 3 → String) (g : Grid Nx Ny Nz)
    (C : Mat Nx Ny Nz) :
    applyBC Nx Ny Nz bcl bch g C = Except.error BCErr.invalidPeriodic
      ↔ periodicStep Nx Ny Nz bcl bch g.L g.iA g.tL g.itA
          = Except.error BCErr.invalidPeriodic := by
  unfold applyBC
  cases hp : periodicStep Nx Ny Nz bcl bch g.L g.iA g.tL g.itA with
  | error e => cases e <;> simp [hp]
  | ok pr =>
    cases hpec : pecStep Nx Ny Nz bcl bch C with
    | error e' =>
      have he : e' = BCErr.nameError := pecStep_error_name Nx Ny Nz bcl bch C e' hpec
      subst he
      simp [hpec]
    | ok Ca =>
      cases hpmc : pmcStep Nx Ny Nz bcl bch Ca with
      | error e' =>
        have he : e' = BCErr.nameError := pmcStep_error_name Nx Ny Nz bcl bch Ca e' hpmc
        subst he
        simp [hpec, hpmc]
      | ok Cb => simp [hpec, hpmc]

/-- C1: one_step performs exactly, in order: on the very first call only
(step_0 set), the cleanup zeroing of the ghost field components and, when
conductors are in use, of the field components of cells whose three
interior-plane flags are all zero; then H is replaced by
H - dt * (H-advance operator) * E; then E is replaced by
E + dt * ((E-advance operator) * H - iDeps * J), reading the already
updated H.  The last conjunct shows that on every call after the first
(step_0 false) the cleanup functions are the identity, so no cleanup
zeroing is performed. -/
theorem C1_one_step_order (Nx Ny Nz : ℕ) (S : SolverFIT3D Nx Ny Nz) (p : Idx Nx Ny Nz) :
    (one_step Nx Ny Nz S).step_0 = false
    ∧ (one_step Nx Ny Nz S).H p = specH Nx Ny Nz S p
    ∧ (one_step Nx Ny Nz S).E p = specE Nx Ny Nz S p
    ∧ (S.step_0 = false →
        specCleanH Nx Ny Nz S p = S.H p ∧ specCleanE Nx Ny Nz S p = S.E p) := by
  refine ⟨one_step_step_0 Nx Ny Nz S, ?_, ?_, ?_⟩
  · rw [one_step_H_eq]
  · rw [one_step_E_eq]
  · intro hs
    unfold specCleanH specCleanE
    simp [hs]

/-- Witness for C1 at a concrete solver state with step_0 already cleared. -/
theorem C1_one_step_order_witness :
    (one_step 1 1 1 S1test).step_0 = false
    ∧ (one_step 1 1 1 S1test).H ((0 : Fin 3), idx0) = specH 1 1 1 S1test ((0 : Fin 3), idx0)
    ∧ (one_step 1 1 1 S1test).E ((0 : Fin 3), idx0) = specE 1 1 1 S1test ((0 : Fin 3), idx0)
    ∧ (S1test.step_0 = false →
        specCleanH 1 1 1 S1test ((0 : Fin 3), idx0) = S1test.H ((0 : Fin 3), idx0)
          ∧ specCleanE 1 1 1 S1test ((0 : Fin 3), idx0) = S1test.E ((0 : Fin 3), idx0)) :=
  C1_one_step_order 1 1 1 S1test ((0 : Fin 3), idx0)

/-- C2: for positive spacings the time step of line 19 of the constructor
equals cfln / (c * sqrt(1/dx^2 + 1/dy^2 + 1/dz^2)); multiplying it back by
the (nonzero) denominator recovers cfln, so the formula is non-degenerate. -/
theorem C2_dt_formula (cfln dx dy dz : ℝ) (hx : 0 < dx) (hy : 0 < dy) (hz : 0 < dz) :
    dt_def cfln dx dy dz
        = cfln / (c_light * Real.sqrt (1 / dx ^ 2 + 1 / dy ^ 2 + 1 / dz ^ 2))
    ∧ dt_def cfln dx dy dz
        * (c_light * Real.sqrt (1 / dx ^ 2 + 1 / dy ^ 2 + 1 / dz ^ 2)) = cfln := by
  refine ⟨rfl, ?_⟩
  have hS : 0 < 1 / dx ^ 2 + 1 / dy ^ 2 + 1 / dz ^ 2 := by positivity
  have hc : (0 : ℝ) < c_light := by norm_num [c_light]
  have hs : 0 < Real.sqrt (1 / dx ^ 2 + 1 / dy ^ 2 + 1 / dz ^ 2) := Real.sqrt_pos.mpr hS
  exact div_mul_cancel₀ cfln (mul_pos hc hs).ne'

/-- Witness for C2 at unit spacings and unit CFL number. -/
theorem C2_dt_formula_witness :
    dt_def 1 1 1 1 = 1 / (c_light * Real.sqrt (1 / 1 ^ 2 + 1 / 1 ^ 2 + 1 / 1 ^ 2))
    ∧ dt_def 1 1 1 1 * (c_light * Real.sqrt (1 / 1 ^ 2 + 1 / 1 ^ 2 + 1 / 1 ^ 2)) = 1 :=
  C2_dt_formula 1 1 1 1 one_pos one_pos one_pos

/-- C3: for a cell fully inside a conductor (all three interior-plane flags
zero, corrected lengths and areas reported as zero there), every E and H
component of that cell is exactly 0 after the first one_step call and stays
0 after every later call, whatever the initial fields and the current J
are. -/
theorem C3_conductor_cells_stay_zero (Nx Ny Nz : ℕ) (g : Grid Nx Ny Nz)
    (r : BCResult Nx Ny Nz) (dt : ℚ) (E0 H0 J0 : Vec Nx Ny Nz)
    (n : Fin (Nx * Ny * Nz)) (d : Fin 3) (k : ℕ) (hk : 1 ≤ k)
    (hyz : g.flag_int_cell_yz (ixc Nx (n : ℕ)) (iyc Nx Ny (n : ℕ)) (izc Nx Ny (n : ℕ)) = false)
    (hzx : g.flag_int_cell_zx (ixc Nx (n : ℕ)) (iyc Nx Ny (n : ℕ)) (izc Nx Ny (n : ℕ)) = false)
    (hxy : g.flag_int_cell_xy (ixc Nx (n : ℕ)) (iyc Nx Ny (n : ℕ)) (izc Nx Ny (n : ℕ)) = false)
    (_hL : ∀ e : Fin 3, g.L e (ixc Nx (n : ℕ)) (iyc Nx Ny (n : ℕ)) (izc Nx Ny (n : ℕ)) = 0)
    (htL : ∀ e : Fin 3, r.tL e (ixc Nx (n : ℕ)) (iyc Nx Ny (n : ℕ)) (izc Nx Ny (n : ℕ)) = 0) :
    ((one_step Nx Ny Nz)^[k]
        { assemble Nx Ny Nz g r dt true with E := E0, H := H0, J := J0 }).H (d, n) = 0
    ∧ ((one_step Nx Ny Nz)^[k]
        { assemble Nx Ny Nz g r dt true with E := E0, H := H0, J := J0 }).E (d, n) = 0 := by
  obtain ⟨m, rfl⟩ : ∃ m, k = m + 1 := ⟨k - 1, (Nat.succ_pred_eq_of_pos hk).symm⟩
  exact C3_aux Nx Ny Nz g r dt E0 H0 J0 n ⟨hyz, hzx, hxy⟩ htL m d

/-- Witness for C3: a fully excluded cell on the 1x1x1 grid with nonzero
initial fields and sources, after two steps. -/
theorem C3_conductor_cells_stay_zero_witness :
    ((one_step 1 1 1)^[2]
        { assemble 1 1 1 gZero rZero 1 true with
            E := fun _ => 3, H := fun _ => 5, J := fun _ => 7 }).H ((0 : Fin 3), idx0) = 0
    ∧ ((one_step 1 1 1)^[2]
        { assemble 1 1 1 gZero rZero 1 true with
            E := fun _ => 3, H := fun _ => 5, J := fun _ => 7 }).E ((0 : Fin 3), idx0) = 0 :=
  C3_conductor_cells_stay_zero 1 1 1 gZero rZero 1 (fun _ => 3) (fun _ => 5) (fun _ => 7)
    idx0 0 2 (by decide) rfl rfl rfl (fun _ => rfl) (fun _ => rfl)

/-- C4 (code bug witness): construction with pml tags on every slot of
bc_low and bc_high does not raise; apply_bc_to_C takes none of its
branches, so the solver is silently built with the raw curl matrix and the
pml request is ignored.  The second conjunct exhibits an untouched entry of
C after the boundary pass. -/
theorem C4_pml_silently_accepted :
    (init 1 1 1 gOnes 1 bcPml bcPml true).toOption.isSome = true
    ∧ ((applyBC 1 1 1 bcPml bcPml gOnes (curlC 1 1 1)).toOption.map
        (fun r => r.C ((2 : Fin 3), idx0) ((1 : Fin 3), idx0)))
      = some (curlC 1 1 1 ((2 : Fin 3), idx0) ((1 : Fin 3), idx0)) := by
  exact ⟨by decide, by decide⟩

/-- C5 counterexample: requesting Periodic on all three axes (more than one
axis) does not raise; construction succeeds, applying only the first fully
periodic axis. -/
theorem C5_counterexample_all_periodic_ok :
    (init 1 1 1 gPer 1 bcPer bcPer true).toOption.isSome = true := by
  decide

/-- C5 amended: apply_bc_to_C raises its explicit invalid-configuration
exception exactly when bc_low mentions a periodic tag and no axis is
periodic on both its low and high side.  In particular several fully
periodic axes are accepted silently (only the first is applied), and a
PEC tag paired with a periodic tag on one axis raises only when no other
axis is fully periodic. -/
theorem C5_amended_periodic_error_iff (Nx Ny Nz : ℕ) (g : Grid Nx Ny Nz)
    (bcl bch : Fin 3 → String) (C : Mat Nx Ny Nz) :
    applyBC Nx Ny Nz bcl bch g C = Except.error BCErr.invalidPeriodic
      ↔ ((isPeriodic (bcl 0) || isPeriodic (bcl 1) || isPeriodic (bcl 2)) = true
          ∧ (isPeriodic (bcl 0) && isPeriodic (bch 0)) = false
          ∧ (isPeriodic (bcl 1) && isPeriodic (bch 1)) = false
          ∧ (isPeriodic (bcl 2) && isPeriodic (bch 2)) = false) :=
  (applyBC_invalid_iff Nx Ny Nz bcl bch g C).trans
    (periodicStep_invalid_iff Nx Ny Nz bcl bch g.L g.iA g.tL g.itA)

/-- C6 counterexample: a pec tag appearing only in bc_high is not honoured.
With bc_low all periodic and bc_high = (pec, periodic, periodic), the
boundary pass succeeds via the periodic y axis, the PEC branch is skipped
because its guard only inspects bc_low, and the tangential E column at the
high x layer keeps a nonzero entry where the claim requires a zeroed
column. -/
theorem C6_counterexample_bc_high_ignored :
    ((applyBC 1 1 1 bcPer bcHighPec gOnes (curlC 1 1 1)).toOption.map
        (fun r => r.C ((2 : Fin 3), idx0) ((1 : Fin 3), idx0))) = some (-1)
    ∧ tangentialBdryE 1 1 1 ((1 : Fin 3), idx0)
    ∧ isPEC (bcHighPec 0) = true
    ∧ ((-1 : ℚ) = 0 → False) := by
  exact ⟨by decide, by decide, by decide, by decide⟩

/-- C6 amended: the PEC and PMC branches run only when the corresponding
tag occurs in bc_low, and a pass through the PEC branch completes without a
NameError only when every slot of bc_low and bc_high is tagged pec or
electric (matched case-insensitively).  In that case the new C equals the
old C with every column scaled by the assembled mask, and the mask is 0
exactly on the columns of tangential E components on a boundary layer and
1 elsewhere, so exactly those columns are zeroed and all other columns are
unchanged. -/
theorem C6_amended_pec_columns (Nx Ny Nz : ℕ) (g : Grid Nx Ny Nz)
    (bcl bch : Fin 3 → String) (Cin : Mat Nx Ny Nz) (p q : Idx Nx Ny Nz)
    (hall : ∀ e : Fin 3, isPEC (bcl e) = true ∧ isPEC (bch e) = true) :
    ((applyBC Nx Ny Nz bcl bch g Cin).toOption.map (fun r => r.C p q))
        = some (Cin p q * BCvec Nx Ny Nz 0 0 0 0 0 0 q)
    ∧ (BCvec Nx Ny Nz 0 0 0 0 0 0 q = 0 ↔ tangentialBdryE Nx Ny Nz q)
    ∧ (BCvec Nx Ny Nz 0 0 0 0 0 0 q = 0 ∨ BCvec Nx Ny Nz 0 0 0 0 0 0 q = 1) := by
  have hper := periodicStep_skip Nx Ny Nz bcl bch g.L g.iA g.tL g.itA
    (isPEC_ne_periodic _ (hall 0).1) (isPEC_ne_periodic _ (hall 1).1)
    (isPEC_ne_periodic _ (hall 2).1)
  have hpec := pecStep_all Nx Ny Nz bcl bch Cin (hall 0).1 (hall 1).1 (hall 2).1
    (hall 0).2 (hall 1).2 (hall 2).2
  have hpmc := pmcStep_skip Nx Ny Nz bcl bch
    (Cin * Matrix.diagonal (BCvec Nx Ny Nz 0 0 0 0 0 0))
    (isPEC_ne_pmcguard _ (hall 0).1) (isPEC_ne_pmcguard _ (hall 1).1)
    (isPEC_ne_pmcguard _ (hall 2).1)
  refine ⟨?_, (BCvec_mask_zero_iff Nx Ny Nz q).1, (BCvec_mask_zero_iff Nx Ny Nz q).2⟩
  simp only [applyBC, hper, hpec, hpmc, Except.toOption, Option.map_some']
  rw [Matrix.mul_diagonal]

/-- Witness for C6 amended: mixed-case pec and electric tags on all six
slots of the 1x1x1 grid. -/
theorem C6_amended_pec_columns_witness :
    ((applyBC 1 1 1 bcLw bcHw gOnes (curlC 1 1 1)).toOption.map
        (fun r => r.C ((0 : Fin 3), idx0) ((1 : Fin 3), idx0)))
        = some (curlC 1 1 1 ((0 : Fin 3), idx0) ((1 : Fin 3), idx0)
            * BCvec 1 1 1 0 0 0 0 0 0 ((1 : Fin 3), idx0))
    ∧ (BCvec 1 1 1 0 0 0 0 0 0 ((1 : Fin 3), idx0) = 0
        ↔ tangentialBdryE 1 1 1 ((1 : Fin 3), idx0))
    ∧ (BCvec 1 1 1 0 0 0 0 0 0 ((1 : Fin 3), idx0) = 0
        ∨ BCvec 1 1 1 0 0 0 0 0 0 ((1 : Fin 3), idx0) = 1) :=
  C6_amended_pec_columns 1 1 1 gOnes bcLw bcHw (curlC 1 1 1)
    ((0 : Fin 3), idx0) ((1 : Fin 3), idx0) (by decide)

/-- C7 counterexample: on a grid whose single cell is fully inside a
conductor (all three flags zero), the inverse-permeability operator of the
assembled solver still holds the vacuum value 1/mu_0, not 0: only the
inverse permittivity is zeroed by apply_conductors. -/
theorem C7_counterexample_imu_not_zeroed :
    excludedCell 1 1 1 gZero 0
    ∧ (assemble 1 1 1 gZero rZero 1 true).imu ((0 : Fin 3), idx0) = 1 / mu_0
    ∧ (1 / mu_0 : ℚ) ≠ 0 := by
  refine ⟨by decide, rfl, ?_⟩
  rw [mu_0]
  norm_num

/-- C7 amended: at construction the inverse permittivity defaults to
1/eps_0 on every component and, when conductors are in use, is set to 0
exactly where the product of the three interior-plane flags vanishes; the
inverse permeability keeps the vacuum value 1/mu_0 on every component and
is never zeroed. -/
theorem C7_amended_material_operators (Nx Ny Nz : ℕ) (g : Grid Nx Ny Nz)
    (r : BCResult Nx Ny Nz) (dt : ℚ) (p : Idx Nx Ny Nz) :
    (assemble Nx Ny Nz g r dt true).ieps p
        = (if flag_in_conductors Nx Ny Nz g ((p.2 : Fin (Nx * Ny * Nz)) : ℕ)
            then 1 / eps_0 else 0)
    ∧ (assemble Nx Ny Nz g r dt true).imu p = 1 / mu_0
    ∧ (assemble Nx Ny Nz g r dt false).ieps p = 1 / eps_0
    ∧ (assemble Nx Ny Nz g r dt false).imu p = 1 / mu_0 := by
  refine ⟨?_, rfl, rfl, rfl⟩
  rw [assemble_ieps_eq]
  by_cases h : flag_in_conductors Nx Ny Nz g ((p.2 : Fin (Nx * Ny * Nz)) : ℕ) <;>
    simp [h]

/-- C8: the two composite update operators are precomputed at construction
as tDs * iDmu * iDa * C and itDa * iDeps * Ds * C-transpose; applying a
composite to a vector equals applying the factor operators in sequence;
and one_step leaves every operator (and dt) of the solver unchanged, so
the composites are never rebuilt or modified after construction. -/
theorem C8_precomputed_composites (Nx Ny Nz : ℕ) (g : Grid Nx Ny Nz)
    (r : BCResult Nx Ny Nz) (dt : ℚ) (uc : Bool) (v : Vec Nx Ny Nz)
    (S : SolverFIT3D Nx Ny Nz) :
    (assemble Nx Ny Nz g r dt uc).tDsiDmuiDaC
        = (assemble Nx Ny Nz g r dt uc).tDs * (assemble Nx Ny Nz g r dt uc).iDmu
          * (assemble Nx Ny Nz g r dt uc).iDa * (assemble Nx Ny Nz g r dt uc).C
    ∧ (assemble Nx Ny Nz g r dt uc).itDaiDepsDstC
        = (assemble Nx Ny Nz g r dt uc).itDa * (assemble Nx Ny Nz g r dt uc).iDeps
          * (assemble Nx Ny Nz g r dt uc).Ds * (assemble Nx Ny Nz g r dt uc).C.transpose
    ∧ (assemble Nx Ny Nz g r dt uc).tDsiDmuiDaC.mulVec v
        = (assemble Nx Ny Nz g r dt uc).tDs.mulVec
            ((assemble Nx Ny Nz g r dt uc).iDmu.mulVec
              ((assemble Nx Ny Nz g r dt uc).iDa.mulVec
                ((assemble Nx Ny Nz g r dt uc).C.mulVec v)))
    ∧ (assemble Nx Ny Nz g r dt uc).itDaiDepsDstC.mulVec v
        = (assemble Nx Ny Nz g r dt uc).itDa.mulVec
            ((assemble Nx Ny Nz g r dt uc).iDeps.mulVec
              ((assemble Nx Ny Nz g r dt uc).Ds.mulVec
                ((assemble Nx Ny Nz g r dt uc).C.transpose.mulVec v)))
    ∧ (one_step Nx Ny Nz S).tDsiDmuiDaC = S.tDsiDmuiDaC
    ∧ (one_step Nx Ny Nz S).itDaiDepsDstC = S.itDaiDepsDstC
    ∧ (one_step Nx Ny Nz S).C = S.C
    ∧ (one_step Nx Ny Nz S).tDs = S.tDs
    ∧ (one_step Nx Ny Nz S).iDa = S.iDa
    ∧ (one_step Nx Ny Nz S).itDa = S.itDa
    ∧ (one_step Nx Ny Nz S).Ds = S.Ds
    ∧ (one_step Nx Ny Nz S).iDmu = S.iDmu
    ∧ (one_step Nx Ny Nz S).iDeps = S.iDeps
    ∧ (one_step Nx Ny Nz S).dt = S.dt := by
  obtain ⟨hdt, _, hC, hDs, hiDa, htDs, hitDa, _, _, hiDeps, hiDmu, hHop, hEop, _, _⟩ :=
    one_step_ops Nx Ny Nz S
  refine ⟨rfl, rfl, ?_, ?_, hHop, hEop, hC, htDs, hiDa, hitDa, hDs, hiDmu, hiDeps, hdt⟩
  · exact (mulVec_four Nx Ny Nz _ _ _ _ v)
  · exact (mulVec_four Nx Ny Nz _ _ _ _ v)

/-- C9 counterexample: construction with periodic boundaries overwrites the
tL array of the grid object in place (the solver attribute tL aliases the
grid array): the last-layer x entry of tL, previously 5, holds the L value
7 afterwards. -/
theorem C9_counterexample_periodic_mutates_grid :
    gPer.tL 0 0 0 0 = 5
    ∧ ((applyBC 1 1 1 bcPer bcPer gPer (curlC 1 1 1)).toOption.map
        (fun r => r.tL 0 0 0 0)) = some 7
    ∧ ((5 : ℚ) = 7 → False) := by
  exact ⟨rfl, by decide, by decide⟩

/-- C9 amended: the L and iA arrays of the grid are never replaced by
construction, in every boundary configuration (periodic included); when
bc_low carries no periodic tag the tL and itA arrays are returned
unchanged as well; but when an axis is periodic on both sides, the
periodic branch overwrites in place both the last tL layer of that axis
with the first L layer and the last itA layers of the two transverse
components with the first iA layers (stated for each of the three axes,
with the elif order of the source).  one_step never changes the grid of
the solver. -/
theorem C9_amended_geometry_frame (Nx Ny Nz : ℕ) (g : Grid Nx Ny Nz)
    (bcl bch : Fin 3 → String) (Cin : Mat Nx Ny Nz) (S : SolverFIT3D Nx Ny Nz)
    (dt : ℚ) (uc : Bool) (i j k : ℕ) (d : Fin 3) :
    ((init Nx Ny Nz g dt bcl bch uc).map (fun T => T.grid.L))
        = ((init Nx Ny Nz g dt bcl bch uc).map (fun _ => g.L))
    ∧ ((init Nx Ny Nz g dt bcl bch uc).map (fun T => T.grid.iA))
        = ((init Nx Ny Nz g dt bcl bch uc).map (fun _ => g.iA))
    ∧ (isPeriodic (bcl 0) = false ∧ isPeriodic (bcl 1) = false
        ∧ isPeriodic (bcl 2) = false →
        ((applyBC Nx Ny Nz bcl bch g Cin).map (fun r => r.tL))
            = ((applyBC Nx Ny Nz bcl bch g Cin).map (fun _ => g.tL))
        ∧ ((applyBC Nx Ny Nz bcl bch g Cin).map (fun r => r.itA))
            = ((applyBC Nx Ny Nz bcl bch g Cin).map (fun _ => g.itA)))
    ∧ ((isPeriodic (bcl 0) && isPeriodic (bch 0)) = true →
        ((applyBC Nx Ny Nz bcl bch g Cin).map (fun r => r.tL 0 (Nx - 1) j k))
            = ((applyBC Nx Ny Nz bcl bch g Cin).map (fun _ => g.L 0 0 j k))
        ∧ (d = 1 ∨ d = 2 →
            ((applyBC Nx Ny Nz bcl bch g Cin).map (fun r => r.itA d (Nx - 1) j k))
                = ((applyBC Nx Ny Nz bcl bch g Cin).map (fun _ => g.iA d 0 j k))))
    ∧ ((isPeriodic (bcl 0) && isPeriodic (bch 0)) = false
        ∧ (isPeriodic (bcl 1) && isPeriodic (bch 1)) = true →
        ((applyBC Nx Ny Nz bcl bch g Cin).map (fun r => r.tL 1 i (Ny - 1) k))
            = ((applyBC Nx Ny Nz bcl bch g Cin).map (fun _ => g.L 1 i 0 k))
        ∧ (d = 0 ∨ d = 2 →
            ((applyBC Nx Ny Nz bcl bch g Cin).map (fun r => r.itA d i (Ny - 1) k))
                = ((applyBC Nx Ny Nz bcl bch g Cin).map (fun _ => g.iA d i 0 k))))
    ∧ ((isPeriodic (bcl 0) && isPeriodic (bch 0)) = false
        ∧ (isPeriodic (bcl 1) && isPeriodic (bch 1)) = false
        ∧ (isPeriodic (bcl 2) && isPeriodic (bch 2)) = true →
        ((applyBC Nx Ny Nz bcl bch g Cin).map (fun r => r.tL 2 i j (Nz - 1)))
            = ((applyBC Nx Ny Nz bcl bch g Cin).map (fun _ => g.L 2 i j 0))
        ∧ (d = 0 ∨ d = 1 →
            ((applyBC Nx Ny Nz bcl bch g Cin).map (fun r => r.itA d i j (Nz - 1)))
                = ((applyBC Nx Ny Nz bcl bch g Cin).map (fun _ => g.iA d i j 0))))
    ∧ (one_step Nx Ny Nz S).grid = S.grid := by
  have hLiA : ((init Nx Ny Nz g dt bcl bch uc).map (fun T => T.grid.L))
        = ((init Nx Ny Nz g dt bcl bch uc).map (fun _ => g.L))
      ∧ ((init Nx Ny Nz g dt bcl bch uc).map (fun T => T.grid.iA))
        = ((init Nx Ny Nz g dt bcl bch uc).map (fun _ => g.iA)) := by
    unfold init
    cases happ : applyBC Nx Ny Nz bcl bch g (curlC Nx Ny Nz) with
    | error e => simp [Except.map]
    | ok rr =>
      simp only [Except.map]
      exact ⟨rfl, rfl⟩
  refine ⟨hLiA.1, hLiA.2, ?_, ?_, ?_, ?_, (one_step_ops Nx Ny Nz S).2.1⟩
  · intro hnp
    have hper := periodicStep_skip Nx Ny Nz bcl bch g.L g.iA g.tL g.itA
      hnp.1 hnp.2.1 hnp.2.2
    exact ⟨applyBC_map_pair Nx Ny Nz bcl bch g Cin g.tL g.itA hper
        (fun r => r.tL) g.tL (fun _ => rfl),
      applyBC_map_pair Nx Ny Nz bcl bch g Cin g.tL g.itA hper
        (fun r => r.itA) g.itA (fun _ => rfl)⟩
  · intro hx
    have h0 := (Bool.and_eq_true _ _).mp hx
    have hper := periodicStep_x Nx Ny Nz bcl bch g.L g.iA g.tL g.itA h0.1 h0.2
    refine ⟨applyBC_map_pair Nx Ny Nz bcl bch g Cin _ _ hper
        (fun r => r.tL 0 (Nx - 1) j k) (g.L 0 0 j k) (fun _ => by simp), ?_⟩
    intro hd
    exact applyBC_map_pair Nx Ny Nz bcl bch g Cin _ _ hper
      (fun r => r.itA d (Nx - 1) j k) (g.iA d 0 j k)
      (fun _ => by rcases hd with rfl | rfl <;> simp)
  · intro hy
    have h1 := (Bool.and_eq_true _ _).mp hy.2
    have hper := periodicStep_y Nx Ny Nz bcl bch g.L g.iA g.tL g.itA hy.1 h1.1 h1.2
    refine ⟨applyBC_map_pair Nx Ny Nz bcl bch g Cin _ _ hper
        (fun r => r.tL 1 i (Ny - 1) k) (g.L 1 i 0 k) (fun _ => by simp), ?_⟩
    intro hd
    exact applyBC_map_pair Nx Ny Nz bcl bch g Cin _ _ hper
      (fun r => r.itA d i (Ny - 1) k) (g.iA d i 0 k)
      (fun _ => by rcases hd with rfl | rfl <;> simp)
  · intro hz
    have h2 := (Bool.and_eq_true _ _).mp hz.2.2
    have hper := periodicStep_z Nx Ny Nz bcl bch g.L g.iA g.tL g.itA hz.1 hz.2.1 h2.1 h2.2
    refine ⟨applyBC_map_pair Nx Ny Nz bcl bch g Cin _ _ hper
        (fun r => r.tL 2 i j (Nz - 1)) (g.L 2 i j 0) (fun _ => by simp), ?_⟩
    intro hd
    exact applyBC_map_pair Nx Ny Nz bcl bch g Cin _ _ hper
      (fun r => r.itA d i j (Nz - 1)) (g.iA d i j 0)
      (fun _ => by rcases hd with rfl | rfl <;> simp)

/-- Witness for C9 amended: the all-periodic configuration on the 1x1x1
grid whose tL and L arrays differ, with the x-axis overwrite conjunct
live. -/
theorem C9_amended_geometry_frame_witness :
    ((init 1 1 1 gPer 1 bcPer bcPer true).map (fun T => T.grid.L))
        = ((init 1 1 1 gPer 1 bcPer bcPer true).map (fun _ => gPer.L))
    ∧ ((init 1 1 1 gPer 1 bcPer bcPer true).map (fun T => T.grid.iA))
        = ((init 1 1 1 gPer 1 bcPer bcPer true).map (fun _ => gPer.iA))
    ∧ (isPeriodic (bcPer 0) = false ∧ isPeriodic (bcPer 1) = false
        ∧ isPeriodic (bcPer 2) = false →
        ((applyBC 1 1 1 bcPer bcPer gPer (curlC 1 1 1)).map (fun r => r.tL))
            = ((applyBC 1 1 1 bcPer bcPer gPer (curlC 1 1 1)).map (fun _ => gPer.tL))
        ∧ ((applyBC 1 1 1 bcPer bcPer gPer (curlC 1 1 1)).map (fun r => r.itA))
            = ((applyBC 1 1 1 bcPer bcPer gPer (curlC 1 1 1)).map (fun _ => gPer.itA)))
    ∧ ((isPeriodic (bcPer 0) && isPeriodic (bcPer 0)) = true →
        ((applyBC 1 1 1 bcPer bcPer gPer (curlC 1 1 1)).map (fun r => r.tL 0 (1 - 1) 0 0))
            = ((applyBC 1 1 1 bcPer bcPer gPer (curlC 1 1 1)).map (fun _ => gPer.L 0 0 0 0))
        ∧ ((1 : Fin 3) = 1 ∨ (1 : Fin 3) = 2 →
            ((applyBC 1 1 1 bcPer bcPer gPer (curlC 1 1 1)).map
                (fun r => r.itA 1 (1 - 1) 0 0))
              = ((applyBC 1 1 1 bcPer bcPer gPer (curlC 1 1 1)).map
                (fun _ => gPer.iA 1 0 0 0))))
    ∧ ((isPeriodic (bcPer 0) && isPeriodic (bcPer 0)) = false
        ∧ (isPeriodic (bcPer 1) && isPeriodic (bcPer 1)) = true →
        ((applyBC 1 1 1 bcPer bcPer gPer (curlC 1 1 1)).map (fun r => r.tL 1 0 (1 - 1) 0))
            = ((applyBC 1 1 1 bcPer bcPer gPer (curlC 1 1 1)).map (fun _ => gPer.L 1 0 0 0))
        ∧ ((1 : Fin 3) = 0 ∨ (1 : Fin 3) = 2 →
            ((applyBC 1 1 1 bcPer bcPer gPer (curlC 1 1 1)).map
                (fun r => r.itA 1 0 (1 - 1) 0))
              = ((applyBC 1 1 1 bcPer bcPer gPer (curlC 1 1 1)).map
                (fun _ => gPer.iA 1 0 0 0))))
    ∧ ((isPeriodic (bcPer 0) && isPeriodic (bcPer 0)) = false
        ∧ (isPeriodic (bcPer 1) && isPeriodic (bcPer 1)) = false
        ∧ (isPeriodic (bcPer 2) && isPeriodic (bcPer 2)) = true →
        ((applyBC 1 1 1 bcPer bcPer gPer (curlC 1 1 1)).map (fun r => r.tL 2 0 0 (1 - 1)))
            = ((applyBC 1 1 1 bcPer bcPer gPer (curlC 1 1 1)).map (fun _ => gPer.L 2 0 0 0))
        ∧ ((1 : Fin 3) = 0 ∨ (1 : Fin 3) = 1 →
            ((applyBC 1 1 1 bcPer bcPer gPer (curlC 1 1 1)).map
                (fun r => r.itA 1 0 0 (1 - 1)))
              = ((applyBC 1 1 1 bcPer bcPer gPer (curlC 1 1 1)).map
                (fun _ => gPer.iA 1 0 0 0))))
    ∧ (one_step 1 1 1 S1test).grid = S1test.grid :=
  C9_amended_geometry_frame 1 1 1 gPer bcPer bcPer (curlC 1 1 1) S1test 1 true 0 0 0 1

/-- C10: with bc_low = (pec, magnetic, magnetic) and bc_high all magnetic,
the PEC branch is entered (pec occurs in bc_low) but ylo, zlo, xhi, yhi and
zhi are never assigned, and assembling the boundary mask reads them, so
construction fails with an uncaught NameError instead of succeeding or
raising a configuration error. -/
theorem C10_partial_pec_name_error :
    init 1 1 1 gOnes 1 bcC10L bcC10H true = Except.error BCErr.nameError := by
  rfl

end PyECT
